import Mathlib

/-!
Verification development for the `api-riosanjuan` measurement service
(`app.py`, with the near-duplicate English variant `ola.py`).

The development shallowly embeds the measurement core:
  * the timestamp normalizer `parse_iso_datetime`,
  * the `mediciones` table keyed by the composite primary key
    `(id_sensor, fecha_hora)` together with the `sensores` catalog that the
    foreign key references,
  * the ingest endpoint `crear_mediciones` (validation loop, upsert via
    `session.merge`, transactional commit/rollback),
  * the query endpoint `consultar_mediciones` (and `get_measurements` from
    `ola.py`): mandatory `id_sensor`, optional inclusive bounds, ordering
    and limit.

Modelling conventions:
  * instants are integers (seconds on a linear time scale); the
    `timestamptz` column stores an absolute instant, so `fecha_hora` is the
    instant of the parsed datetime;
  * Python floats are modelled as rationals (`Rat`); no claim involves
    floating-point rounding, values are only stored and returned verbatim;
  * `datetime.fromisoformat` is embedded for its core grammar
    `YYYY-MM-DD[<sep>HH:MM[:SS][±HH:MM]]` with full calendar validation;
    fractional seconds and seconds-bearing offsets are omitted (no claim
    involves them);
  * tables are lists of rows; the database's primary-key and foreign-key
    enforcement appear as the invariant `StoreInv`;
  * uncaught Python exceptions (e.g. `TypeError` from `int(None)`) are a
    distinguished `HttpResult.crash` outcome, separate from handled
    error responses.
-/

namespace RioSanJuan

set_option maxRecDepth 10000

/-- A parsed Python `datetime`: wall-clock fields plus an optional fixed
UTC offset in seconds (`none` models a naive datetime, `tzinfo is None`). -/
structure PyDateTime where
  year : Nat
  month : Nat
  day : Nat
  hour : Nat
  minute : Nat
  second : Nat
  tzOffset : Option Int
deriving DecidableEq, Repr

/-- Value of a decimal digit character, `none` on non-digits. -/
def digitVal (c : Char) : Option Nat :=
  if c.isDigit then some (c.toNat - 48) else none

/-- Read exactly two digit characters as a number, returning the rest. -/
def read2 : List Char → Option (Nat × List Char)
  | c1 :: c2 :: rest => do
      let d1 ← digitVal c1
      let d2 ← digitVal c2
      pure (d1 * 10 + d2, rest)
  | _ => none

/-- Read exactly four digit characters as a number, returning the rest. -/
def read4 : List Char → Option (Nat × List Char)
  | c1 :: c2 :: c3 :: c4 :: rest => do
      let d1 ← digitVal c1
      let d2 ← digitVal c2
      let d3 ← digitVal c3
      let d4 ← digitVal c4
      pure (((d1 * 10 + d2) * 10 + d3) * 10 + d4, rest)
  | _ => none

/-- Consume one expected character. -/
def expectChar (c : Char) : List Char → Option (List Char)
  | x :: rest => if x = c then some rest else none
  | [] => none

/-- Gregorian leap-year test (as in Python's `calendar.isleap`). -/
def isLeapYear (y : Nat) : Bool :=
  y % 4 == 0 && (y % 100 != 0 || y % 400 == 0)

/-- Days in a month, with leap years. -/
def daysInMonth (y m : Nat) : Nat :=
  if m = 2 then (if isLeapYear y then 29 else 28)
  else if m = 4 ∨ m = 6 ∨ m = 9 ∨ m = 11 then 30
  else 31

/-- Optional minutes and seconds of the time part: `":MM[:SS]"` or nothing
(Python's `fromisoformat` accepts `HH`, `HH:MM` and `HH:MM:SS`). -/
def readMinSec : List Char → Option (Nat × Nat × List Char)
  | ':' :: rest => do
      let (mi, r1) ← read2 rest
      match r1 with
      | ':' :: r2 => do
          let (se, r3) ← read2 r2
          pure (mi, se, r3)
      | r2 => pure (mi, 0, r2)
  | rest => pure (0, 0, rest)

/-- Core of `datetime.fromisoformat`: `YYYY-MM-DD`, optionally a single
separator character (any character, as in CPython) followed by the time
`HH[:MM[:SS]]` and an optional fixed offset `±HH:MM`.  Returns `none` on
anything else (which the source surfaces as `ValueError`). -/
def fromisoformat (s : String) : Option PyDateTime := do
  let cs := s.data
  let (y, r1) ← read4 cs
  let r2 ← expectChar '-' r1
  let (mo, r3) ← read2 r2
  let r4 ← expectChar '-' r3
  let (d, r5) ← read2 r4
  if y < 1 ∨ mo < 1 ∨ mo > 12 ∨ d < 1 ∨ d > daysInMonth y mo then none
  else
    match r5 with
    | [] => pure ⟨y, mo, d, 0, 0, 0, none⟩
    | _ :: r6 => do
        let (hh, r7) ← read2 r6
        let (mi, se, r8) ← readMinSec r7
        if hh > 23 ∨ mi > 59 ∨ se > 59 then none
        else
          match r8 with
          | [] => pure ⟨y, mo, d, hh, mi, se, none⟩
          | c :: r9 =>
              if c = '+' ∨ c = '-' then do
                let (oh, r10) ← read2 r9
                let r11 ← expectChar ':' r10
                let (om, r12) ← read2 r11
                if oh > 23 ∨ om > 59 ∨ ¬ r12.isEmpty then none
                else
                  pure ⟨y, mo, d, hh, mi, se,
                    some ((if c = '-' then (-1 : Int) else 1) * (oh * 3600 + om * 60))⟩
              else none

/-- Python's `value.replace("Z", "+00:00")`: every `'Z'` becomes `"+00:00"`. -/
def pyReplaceZ (s : String) : String :=
  ⟨s.data.foldr
    (fun c acc => if c = 'Z' then '+' :: '0' :: '0' :: ':' :: '0' :: '0' :: acc
                  else c :: acc) []⟩

/-- Days since 0000-03-01 of a civil date (valid `1 ≤ m ≤ 12`,
`1 ≤ d ≤ daysInMonth`, `y ≥ 1`); Hinnant's `days_from_civil` restricted to
positive years, so every quantity stays in `Nat`. -/
def civilDays (y m d : Nat) : Nat :=
  let y' := if m ≤ 2 then y - 1 else y
  let era := y' / 400
  let yoe := y' % 400
  let mp := if m > 2 then m - 3 else m + 9
  let doy := (153 * mp + 2) / 5 + (d - 1)
  let doe := yoe * 365 + yoe / 4 - yoe / 100 + doy
  era * 146097 + doe

/-- Seconds of the wall-clock fields on the linear day scale, ignoring the
offset. -/
def PyDateTime.naiveSeconds (dt : PyDateTime) : Int :=
  ((civilDays dt.year dt.month dt.day) * 86400
    + dt.hour * 3600 + dt.minute * 60 + dt.second : Nat)

/-- The absolute instant denoted by an (aware or naive) datetime; aware
datetimes subtract their offset, naive ones compare by wall clock
(every stored datetime in this development is aware). -/
def PyDateTime.instant (dt : PyDateTime) : Int :=
  dt.naiveSeconds - dt.tzOffset.getD 0

/-- The fixed `ValueError` message raised by `parse_iso_datetime`. -/
def invalidTimestampMsg : String :=
  "fecha_hora debe venir en formato ISO 8601 (ej: 2025-10-14T09:30:00Z)"

/-- The normalizer `parse_iso_datetime` from `app.py` (identical in `ola.py`): replace
`"Z"` by `"+00:00"`, parse with `fromisoformat`, default a missing zone to
UTC, and raise `ValueError` with a fixed guidance message otherwise. -/
def parse_iso_datetime (value : String) : Except String PyDateTime :=
  match fromisoformat (pyReplaceZ value) with
  | some dt =>
      if dt.tzOffset.isNone then .ok { dt with tzOffset := some 0 } else .ok dt
  | none => .error invalidTimestampMsg

/-- A row of the `mediciones` table: composite primary key
`(id_sensor, fecha_hora)` plus the measured value.  `fecha_hora` is the
absolute instant stored by the `timestamptz` column; `valor` models the
`float` column as a rational. -/
structure Medicion where
  id_sensor : Int
  fecha_hora : Int
  valor : Rat
deriving DecidableEq, Repr

/-- The composite primary key of a `Medicion` row. -/
def Medicion.pk (m : Medicion) : Int × Int := (m.id_sensor, m.fecha_hora)

/-- Database state relevant to the measurement core: the ids present in
the `sensores` catalog table (the foreign-key target) and the rows of the
`mediciones` table. -/
structure Store where
  sensores : List Int
  mediciones : List Medicion
deriving DecidableEq, Repr

/-- Upsert `db.session.merge` on a `Medicion`: upsert by the composite primary
key — if a row with the same `(id_sensor, fecha_hora)` exists it is
replaced in place, otherwise the new row is inserted. -/
def merge_medicion (rows : List Medicion) (m : Medicion) : List Medicion :=
  if rows.any (fun x => x.pk = m.pk) then
    rows.map (fun x => if x.pk = m.pk then m else x)
  else rows ++ [m]

/-- Python exceptions arising in the ingest loop.  `keyError` and
`valueError` are caught by the endpoint's `except (KeyError, ValueError)`;
the rest would propagate out of the handler. -/
inductive PyErr where
  | keyError (key : String)
  | valueError (msg : String)
  | typeError
  | attributeError
deriving DecidableEq, Repr

instance {ε α : Type} [DecidableEq ε] [DecidableEq α] : DecidableEq (Except ε α) :=
  fun x y =>
    match x, y with
    | .ok a, .ok b =>
        if h : a = b then .isTrue (by rw [h])
        else .isFalse (by intro hc; cases hc; exact h rfl)
    | .ok _, .error _ => .isFalse (by intro hc; cases hc)
    | .error _, .ok _ => .isFalse (by intro hc; cases hc)
    | .error e, .error f =>
        if h : e = f then .isTrue (by rw [h])
        else .isFalse (by intro hc; cases hc; exact h rfl)

/-- A JSON scalar as delivered by `request.get_json()` for a field. -/
inductive JVal where
  | jnull
  | jbool (b : Bool)
  | jint (n : Int)
  | jnum (q : Rat)
  | jstr (s : String)
deriving DecidableEq, Repr

/-- Decimal digits to a number; `none` if empty or a non-digit occurs. -/
def natOfDigits (l : List Char) (acc : Nat) : Option Nat :=
  match l with
  | [] => some acc
  | c :: rest =>
      match digitVal c with
      | some d => natOfDigits rest (acc * 10 + d)
      | none => none

/-- Python `int(s)` on a string: optional sign then decimal digits
(whitespace stripping and underscore separators are omitted; no claim
involves them). -/
def pyStrToInt (s : String) : Option Int :=
  match s.data with
  | '+' :: rest =>
      if rest.isEmpty then none else (natOfDigits rest 0).map Int.ofNat
  | '-' :: rest =>
      if rest.isEmpty then none else (natOfDigits rest 0).map (fun n => -(n : Int))
  | l => if l.isEmpty then none else (natOfDigits l 0).map Int.ofNat

/-- Decimal digits possibly empty, with their count. -/
def natOfDigitsLen (l : List Char) : Option (Nat × Nat) :=
  match l with
  | [] => some (0, 0)
  | c :: rest => do
      let d ← digitVal c
      let (n, k) ← natOfDigitsLen rest
      pure (d * 10 ^ k + n, k + 1)

/-- Python `float(s)` on a string, for the plain decimal grammar
`[sign] digits [ "." digits ]` with at least one digit (scientific
notation, `inf` and `nan` are omitted; no claim involves them). -/
def pyStrToRat (s : String) : Option Rat :=
  let core : List Char → Option Rat := fun l =>
    match l.splitOn '.' with
    | [ip] => do
        let (n, k) ← natOfDigitsLen ip
        if k = 0 then none else pure (n : Rat)
    | [ip, fp] => do
        let (ni, ki) ← natOfDigitsLen ip
        let (nf, kf) ← natOfDigitsLen fp
        if ki + kf = 0 then none
        else pure ((ni : Rat) + (nf : Rat) / ((10 : Rat) ^ kf))
    | _ => none
  match s.data with
  | '+' :: rest => core rest
  | '-' :: rest => (core rest).map Neg.neg
  | l => core l

/-- Python `int(x)` on a JSON value: ints pass, bools become 0/1, floats
truncate toward zero, strings parse as decimal integers (`ValueError`
otherwise), `None` is a `TypeError`. -/
def py_int : JVal → Except PyErr Int
  | .jint n => .ok n
  | .jbool b => .ok (if b then 1 else 0)
  | .jnum q => .ok (if q < 0 then -((-q).floor) else q.floor)
  | .jstr s =>
      match pyStrToInt s with
      | some n => .ok n
      | none => .error (.valueError
          ("invalid literal for int() with base 10: '" ++ s ++ "'"))
  | .jnull => .error .typeError

/-- Python `float(x)` on a JSON value: numbers pass, bools become 0/1,
strings parse as decimals (`ValueError` otherwise), `None` is a
`TypeError`. -/
def py_float : JVal → Except PyErr Rat
  | .jnum q => .ok q
  | .jint n => .ok (n : Rat)
  | .jbool b => .ok (if b then 1 else 0)
  | .jstr s =>
      match pyStrToRat s with
      | some q => .ok q
      | none => .error (.valueError
          ("could not convert string to float: '" ++ s ++ "'"))
  | .jnull => .error .typeError

/-- The call `parse_iso_datetime(x)` on a JSON field value: on a string it
parses (a `ValueError` on failure); on anything else `value.replace`
raises `AttributeError`. -/
def parse_iso_val : JVal → Except PyErr Int
  | .jstr s =>
      match parse_iso_datetime s with
      | .ok dt => .ok dt.instant
      | .error m => .error (.valueError m)
  | _ => .error .attributeError

/-- One raw reading object from the JSON body; `none` for an absent key
(whose subscript raises `KeyError`). -/
structure RawItem where
  id_sensor : Option JVal
  fecha_hora : Option JVal
  valor : Option JVal
deriving DecidableEq, Repr

/-- Subscript `item[key]`: the value, or `KeyError` naming the key. -/
def getField (key : String) : Option JVal → Except PyErr JVal
  | some v => .ok v
  | none => .error (.keyError key)

/-- The body of one loop iteration of `crear_mediciones`:
`int(item["id_sensor"])`, `parse_iso_datetime(item["fecha_hora"])`,
`float(item["valor"])`, in that order, first exception wins. -/
def coerceItem (it : RawItem) : Except PyErr Medicion :=
  match getField "id_sensor" it.id_sensor with
  | .error e => .error e
  | .ok v1 =>
      match py_int v1 with
      | .error e => .error e
      | .ok sid =>
          match getField "fecha_hora" it.fecha_hora with
          | .error e => .error e
          | .ok v2 =>
              match parse_iso_val v2 with
              | .error e => .error e
              | .ok ts =>
                  match getField "valor" it.valor with
                  | .error e => .error e
                  | .ok v3 =>
                      match py_float v3 with
                      | .error e => .error e
                      | .ok va => .ok ⟨sid, ts, va⟩

/-- Python `str(e)` for the exceptions the handler catches: a `KeyError`
prints the quoted key, a `ValueError` its message. -/
def pyErrStr : PyErr → String
  | .keyError k => "'" ++ k ++ "'"
  | .valueError m => m
  | _ => ""

/-- Is the exception caught by `except (KeyError, ValueError)`? -/
def isCaught : PyErr → Bool
  | .keyError _ => true
  | .valueError _ => true
  | _ => false

/-- Outcome of the validation loop of `crear_mediciones`. -/
inductive VRes where
  | ok (ms : List Medicion)
  | badItem (i : Nat) (msg : String)
  | crash (e : PyErr)
deriving DecidableEq, Repr

/-- The validation loop `for i, item in enumerate(items, start=1)`:
coerce each item, returning on the first caught exception with the
1-indexed position, crashing on an uncaught one. -/
def validateItems : List RawItem → Nat → VRes
  | [], _ => .ok []
  | it :: rest, i =>
      match coerceItem it with
      | .ok m =>
          match validateItems rest (i + 1) with
          | .ok ms => .ok (m :: ms)
          | r => r
      | .error e => if isCaught e then .badItem i (pyErrStr e) else .crash e

/-- Response data payloads: the insert count of a successful ingest, or
the rows of a successful query (each rendered row carries `id_sensor`,
the `isoformat()` of `fecha_hora` — represented by the instant — and
`valor`). -/
inductive RData where
  | inserted (n : Nat)
  | rows (rs : List Medicion)
deriving DecidableEq, Repr

/-- A structured endpoint response: `ok(data, status)` or
`fail(message, status, details)`. -/
inductive Resp where
  | ok (data : Option RData) (status : Nat)
  | fail (message : String) (status : Nat) (details : Option String)
deriving DecidableEq, Repr

/-- Result of one request: a structured response, or an uncaught Python
exception escaping the handler. -/
inductive HttpResult where
  | resp (r : Resp)
  | crash (e : PyErr)
deriving DecidableEq, Repr

/-- The request body of `POST /mediciones`: invalid JSON, a single
object, or an array of objects. -/
inductive Payload where
  | invalid
  | single (it : RawItem)
  | array (its : List RawItem)
deriving DecidableEq, Repr

/-- Normalization `items = payload if isinstance(payload, list) else [payload]`. -/
def payloadItems : Payload → Option (List RawItem)
  | .invalid => none
  | .single it => some [it]
  | .array its => some its

/-- The opaque `str(e)` diagnostic the endpoint attaches when the commit
fails; the database driver's referential-violation text, treated as an
opaque string by the design. -/
def fkViolationDetails : String := "IntegrityError: foreign key violation"

/-- Endpoint `POST /mediciones` (`crear_mediciones`): reject invalid JSON, run the
validation loop, then merge every row and commit in one transaction; the
commit fails — rolling everything back — exactly when some row references
an `id_sensor` absent from the `sensores` catalog (the foreign-key
constraint), and otherwise reports `{"insertados": len(mediciones)}` with
status 201. -/
def crear_mediciones (p : Payload) (st : Store) : HttpResult × Store :=
  match payloadItems p with
  | none => (.resp (.fail "JSON inválido o vacío" 400 none), st)
  | some items =>
      match validateItems items 1 with
      | .badItem i m =>
          (.resp (.fail ("Ítem #" ++ toString i ++ " inválido: " ++ m) 400 none), st)
      | .crash e => (.crash e, st)
      | .ok ms =>
          if ms.all (fun m => st.sensores.contains m.id_sensor) then
            (.resp (.ok (some (.inserted ms.length)) 201),
             { st with mediciones := ms.foldl merge_medicion st.mediciones })
          else
            (.resp (.fail "No se pudieron guardar las mediciones" 400
              (some fkViolationDetails)), st)

/-- Flask's `request.args.get(key, type=int)` (Werkzeug): absent gives
the default (`none` here), present values are coerced with `int()` and a
coercion failure silently yields the default. -/
def flaskGetInt (v : Option String) : Option Int :=
  match v with
  | none => none
  | some s => pyStrToInt s

/-- The effective limit: `request.args.get("limit", default=100, type=int)`
— absent or uncoercible gives 100. -/
def limitOf (v : Option String) : Int :=
  match v with
  | none => 100
  | some s => (pyStrToInt s).getD 100

/-- Python `str.lower()` (ASCII case, sufficient for the order tokens). -/
def pyLower (s : String) : String := ⟨s.data.map Char.toLower⟩

/-- The effective order token:
`request.args.get("order", default="desc", type=str).lower()`. -/
def orderOf (v : Option String) : String := pyLower (v.getD "desc")

/-- One optional bound parameter (`desde`/`hasta`, `from`/`to`): the
source guards with Python truthiness (`if desde:`), so an absent or empty
parameter imposes no bound, and a non-empty one is parsed, a parse failure
raising `ValueError` with the normalizer's message. -/
def boundOf (v : Option String) : Except String (Option Int) :=
  match v with
  | none => .ok none
  | some s =>
      if s = "" then .ok none
      else
        match parse_iso_datetime s with
        | .ok dt => .ok (some dt.instant)
        | .error m => .error m

/-- Does a row pass the `WHERE` clauses: the mandatory sensor filter and
the optional inclusive bounds on `fecha_hora`? -/
def matchesQuery (sid : Int) (lb ub : Option Int) (m : Medicion) : Bool :=
  m.id_sensor = sid
    && (match lb with | some t => decide (t ≤ m.fecha_hora) | none => true)
    && (match ub with | some t => decide (m.fecha_hora ≤ t) | none => true)

/-- Comparison for `ORDER BY fecha_hora ASC`. -/
def ascOrder (a b : Medicion) : Prop := a.fecha_hora ≤ b.fecha_hora

/-- Comparison for `ORDER BY fecha_hora DESC`. -/
def descOrder (a b : Medicion) : Prop := b.fecha_hora ≤ a.fecha_hora

instance : DecidableRel ascOrder := fun a b => Int.decLe a.fecha_hora b.fecha_hora

instance : DecidableRel descOrder := fun a b => Int.decLe b.fecha_hora a.fecha_hora

/-- The SQL query built by the endpoints: filter the `mediciones` table by
sensor and bounds, order by `fecha_hora` per the order token (`"asc"`
ascending, anything else descending), and apply `LIMIT`.  `ORDER BY` is
modelled by insertion sort (ties cannot arise for a primary-keyed sensor);
a non-positive limit returns no rows. -/
def runQuery (sid : Int) (lb ub : Option Int) (ord : String) (limit : Int)
    (rows : List Medicion) : List Medicion :=
  let base := rows.filter (matchesQuery sid lb ub)
  let sorted :=
    if ord = "asc" then List.insertionSort ascOrder base
    else List.insertionSort descOrder base
  sorted.take limit.toNat

/-- The query parameters of `GET /mediciones`, each as the raw optional
query-string value. -/
structure QueryArgs where
  id_sensor : Option String
  limit : Option String
  order : Option String
  desde : Option String
  hasta : Option String
deriving DecidableEq, Repr

/-- Endpoint `GET /mediciones` (`consultar_mediciones`): `id_sensor` is mandatory
and falsy values (absent, uncoercible, or zero) are rejected; `desde` and
`hasta` are optional inclusive bounds whose parse failure is caught as a
400; the matched rows are ordered per `order` and truncated to `limit`. -/
def consultar_mediciones (args : QueryArgs) (st : Store) : HttpResult :=
  match flaskGetInt args.id_sensor with
  | none => .resp (.fail "Parámetro 'id_sensor' es obligatorio" 400 none)
  | some sid =>
      if sid = 0 then .resp (.fail "Parámetro 'id_sensor' es obligatorio" 400 none)
      else
        let limit := limitOf args.limit
        let ord := orderOf args.order
        match boundOf args.desde with
        | .error e => .resp (.fail e 400 none)
        | .ok lb =>
            match boundOf args.hasta with
            | .error e => .resp (.fail e 400 none)
            | .ok ub =>
                .resp (.ok (some (.rows (runQuery sid lb ub ord limit st.mediciones))) 200)

/-- The query parameters of `ola.py`'s `GET /measurements`. -/
structure OlaQueryArgs where
  id_sensor : Option String
  limit : Option String
  order : Option String
  date_from : Option String
  date_to : Option String
deriving DecidableEq, Repr

/-- Endpoint `GET /measurements` (`get_measurements` in `ola.py`): identical logic
to `consultar_mediciones` with English messages and `from`/`to`
parameter names. -/
def get_measurements (args : OlaQueryArgs) (st : Store) : HttpResult :=
  match flaskGetInt args.id_sensor with
  | none => .resp (.fail "Parameter 'id_sensor' is required" 400 none)
  | some sid =>
      if sid = 0 then .resp (.fail "Parameter 'id_sensor' is required" 400 none)
      else
        let limit := limitOf args.limit
        let ord := orderOf args.order
        match boundOf args.date_from with
        | .error e => .resp (.fail e 400 none)
        | .ok lb =>
            match boundOf args.date_to with
            | .error e => .resp (.fail e 400 none)
            | .ok ub =>
                .resp (.ok (some (.rows (runQuery sid lb ub ord limit st.mediciones))) 200)

/-- Primary-key integrity of the `mediciones` table: no two rows share the
composite key — enforced by the database's `PRIMARY KEY`. -/
def pkNodup (rows : List Medicion) : Prop :=
  (rows.map Medicion.pk).Nodup

/-- Referential integrity: every row's `id_sensor` exists in the
`sensores` catalog — enforced by the database's `FOREIGN KEY`. -/
def fkConsistent (st : Store) : Prop :=
  ∀ m ∈ st.mediciones, m.id_sensor ∈ st.sensores

/-- The database invariant: primary-key and foreign-key integrity. -/
def StoreInv (st : Store) : Prop :=
  pkNodup st.mediciones ∧ fkConsistent st

instance : DecidablePred pkNodup := fun rows =>
  inferInstanceAs (Decidable (rows.map Medicion.pk).Nodup)

instance (st : Store) : Decidable (fkConsistent st) :=
  inferInstanceAs (Decidable (∀ m ∈ st.mediciones, m.id_sensor ∈ st.sensores))

instance (st : Store) : Decidable (StoreInv st) :=
  inferInstanceAs (Decidable (_ ∧ _))

/-- Lookup of the row with a given composite key (the first match; under
`pkNodup` it is the only one). -/
def lookupPK : List Medicion → (Int × Int) → Option Medicion
  | [], _ => none
  | x :: rest, k => if x.pk = k then some x else lookupPK rest k

/-- The last row of a batch writing key `k` — the write that wins under
sequential `merge`. -/
def lastWriteAt : List Medicion → (Int × Int) → Option Medicion
  | [], _ => none
  | m :: rest, k =>
      match lastWriteAt rest k with
      | some x => some x
      | none => if m.pk = k then some m else none

/-- Iterated ingest: `n` further submissions of the same payload. -/
def ingestN : Nat → Payload → Store → Store
  | 0, _, st => st
  | n + 1, p, st => ingestN n p (crear_mediciones p st).2

/-- Two states agree as databases: same catalog and, for every composite
key, the same stored row. -/
def StoreSim (a b : Store) : Prop :=
  a.sensores = b.sensores ∧ ∀ k, lookupPK a.mediciones k = lookupPK b.mediciones k

/-! Algebra of `merge` (upsert) on the `mediciones` table -/

theorem lookupPK_append (l₁ l₂ : List Medicion) (k : Int × Int) :
    lookupPK (l₁ ++ l₂) k = (lookupPK l₁ k).or (lookupPK l₂ k) := by
  induction l₁ with
  | nil => simp [lookupPK]
  | cons x rest ih =>
      by_cases hx : x.pk = k <;> simp [lookupPK, hx, ih]

theorem lookupPK_map_replace (l : List Medicion) (m : Medicion) (k : Int × Int) :
    lookupPK (l.map (fun x => if x.pk = m.pk then m else x)) k =
      if k = m.pk then (if l.any (fun x => x.pk = m.pk) then some m else none)
      else lookupPK l k := by
  induction l with
  | nil => by_cases hk : k = m.pk <;> simp [lookupPK, hk]
  | cons x rest ih =>
      by_cases hx : x.pk = m.pk
      · by_cases hk : k = m.pk
        · simp [lookupPK, hx, hk]
        · have h1 : ¬ m.pk = k := fun h => hk h.symm
          have h2 : ¬ x.pk = k := by rw [hx]; exact h1
          simp [lookupPK, hx, h1, h2, ih, hk]
      · by_cases hxk : x.pk = k
        · have hk : ¬ k = m.pk := fun h => hx (hxk.trans h)
          simp [lookupPK, hx, hxk, hk]
        · simp [lookupPK, hx, hxk, ih, List.any_cons]

theorem lookupPK_none_of_not_any (l : List Medicion) (k : Int × Int)
    (h : l.any (fun x => x.pk = k) = false) : lookupPK l k = none := by
  induction l with
  | nil => rfl
  | cons x rest ih =>
      simp only [List.any_cons, Bool.or_eq_false_iff, decide_eq_false_iff_not] at h
      simp [lookupPK, h.1, ih h.2]

theorem lookupPK_merge (l : List Medicion) (m : Medicion) (k : Int × Int) :
    lookupPK (merge_medicion l m) k = if k = m.pk then some m else lookupPK l k := by
  unfold merge_medicion
  by_cases hany : l.any (fun x => x.pk = m.pk)
  · rw [if_pos hany, lookupPK_map_replace, if_pos hany]
  · rw [if_neg hany, lookupPK_append]
    by_cases hk : k = m.pk
    · rw [lookupPK_none_of_not_any l k
        (by simpa [hk] using Bool.of_not_eq_true hany)]
      simp [lookupPK, hk]
    · have : ¬ m.pk = k := fun h => hk h.symm
      simp [lookupPK, this, hk]

theorem lastWriteAt_cons (m : Medicion) (ms : List Medicion) (k : Int × Int) :
    lastWriteAt (m :: ms) k =
      match lastWriteAt ms k with
      | some x => some x
      | none => if m.pk = k then some m else none := rfl

theorem lookupPK_foldl_merge (ms l : List Medicion) (k : Int × Int) :
    lookupPK (ms.foldl merge_medicion l) k = (lastWriteAt ms k).or (lookupPK l k) := by
  induction ms generalizing l with
  | nil => simp [lastWriteAt]
  | cons m ms ih =>
      rw [List.foldl_cons, ih, lookupPK_merge, lastWriteAt_cons]
      cases hw : lastWriteAt ms k with
      | some x => simp
      | none =>
          by_cases hk : k = m.pk
          · simp [hk]
          · have : ¬ m.pk = k := fun h => hk h.symm
            simp [hk, this]

theorem pk_of_lookupPK (l : List Medicion) (k : Int × Int) (x : Medicion)
    (h : lookupPK l k = some x) : x.pk = k ∧ x ∈ l := by
  induction l with
  | nil => simp [lookupPK] at h
  | cons y rest ih =>
      by_cases hy : y.pk = k
      · simp only [lookupPK, if_pos hy] at h
        cases h
        exact ⟨hy, List.mem_cons_self _ _⟩
      · simp only [lookupPK, if_neg hy] at h
        exact ⟨(ih h).1, List.mem_cons_of_mem _ (ih h).2⟩

theorem pkNodup_tail (y : Medicion) (rest : List Medicion) (h : pkNodup (y :: rest)) :
    pkNodup rest := by
  simpa [pkNodup] using (List.nodup_cons.mp (by simpa [pkNodup] using h)).2

theorem mem_iff_lookupPK (l : List Medicion) (x : Medicion) (h : pkNodup l) :
    x ∈ l ↔ lookupPK l x.pk = some x := by
  constructor
  · intro hx
    induction l with
    | nil => simp at hx
    | cons y rest ih =>
        rcases List.mem_cons.mp hx with rfl | hx'
        · simp [lookupPK]
        · have hy : ¬ y.pk = x.pk := by
            intro hpk
            have : x.pk ∈ rest.map Medicion.pk := List.mem_map_of_mem _ hx'
            have hnotin : y.pk ∉ rest.map Medicion.pk :=
              (List.nodup_cons.mp (by simpa [pkNodup] using h)).1
            exact hnotin (hpk ▸ this)
          have hrest : pkNodup rest := pkNodup_tail y rest h
          simp [lookupPK, hy, ih hrest hx']
  · intro hx
    exact (pk_of_lookupPK l x.pk x hx).2

theorem pk_map_replace (l : List Medicion) (m : Medicion) :
    (l.map (fun x => if x.pk = m.pk then m else x)).map Medicion.pk =
      l.map Medicion.pk := by
  induction l with
  | nil => rfl
  | cons x rest ih =>
      by_cases hx : x.pk = m.pk <;> simp [hx, ih]

theorem pkNodup_merge (l : List Medicion) (m : Medicion) (h : pkNodup l) :
    pkNodup (merge_medicion l m) := by
  unfold merge_medicion
  by_cases hany : l.any (fun x => x.pk = m.pk)
  · rw [if_pos hany]
    unfold pkNodup
    rw [pk_map_replace l m]
    exact h
  · rw [if_neg hany]
    unfold pkNodup
    rw [List.map_append]
    simp only [List.map_cons, List.map_nil]
    rw [List.nodup_append]
    refine ⟨h, List.nodup_singleton _, ?_⟩
    intro a ha hb
    simp only [List.mem_singleton] at hb
    subst hb
    rcases List.mem_map.mp ha with ⟨x, hxl, hxpk⟩
    exact hany (List.any_eq_true.mpr ⟨x, hxl, by simp [hxpk]⟩)

theorem pkNodup_foldl_merge (ms l : List Medicion) (h : pkNodup l) :
    pkNodup (ms.foldl merge_medicion l) := by
  induction ms generalizing l with
  | nil => exact h
  | cons m ms ih => exact ih _ (pkNodup_merge l m h)

theorem mem_merge_elim (l : List Medicion) (m x : Medicion)
    (h : x ∈ merge_medicion l m) : x ∈ l ∨ x = m := by
  unfold merge_medicion at h
  by_cases hany : l.any (fun y => y.pk = m.pk)
  · rw [if_pos hany] at h
    rcases List.mem_map.mp h with ⟨y, hyl, hyx⟩
    by_cases hy : y.pk = m.pk
    · right; rw [if_pos hy] at hyx; exact hyx.symm
    · left; rw [if_neg hy] at hyx; exact hyx ▸ hyl
  · rw [if_neg hany] at h
    rcases List.mem_append.mp h with h' | h'
    · exact Or.inl h'
    · exact Or.inr (List.mem_singleton.mp h')

theorem mem_foldl_merge_elim (ms l : List Medicion) (x : Medicion)
    (h : x ∈ ms.foldl merge_medicion l) : x ∈ l ∨ x ∈ ms := by
  induction ms generalizing l with
  | nil => exact Or.inl h
  | cons m ms ih =>
      rw [List.foldl_cons] at h
      rcases ih _ h with h' | h'
      · rcases mem_merge_elim l m x h' with h'' | h''
        · exact Or.inl h''
        · exact Or.inr (h'' ▸ List.mem_cons_self _ _)
      · exact Or.inr (List.mem_cons_of_mem _ h')

/-! The validation loop -/

theorem validateItems_length (items : List RawItem) (i : Nat) (ms : List Medicion)
    (h : validateItems items i = .ok ms) : ms.length = items.length := by
  induction items generalizing i ms with
  | nil => simp [validateItems] at h; simp [← h]
  | cons it rest ih =>
      unfold validateItems at h
      cases hc : coerceItem it with
      | ok m =>
          rw [hc] at h
          cases hv : validateItems rest (i + 1) with
          | ok ms' =>
              rw [hv] at h
              cases h
              simp [ih (i + 1) ms' hv]
          | badItem j msg => rw [hv] at h; cases h
          | crash e => rw [hv] at h; cases h
      | error e =>
          rw [hc] at h
          by_cases hcaught : isCaught e <;> simp [hcaught] at h

theorem validateItems_first_bad (pre : List RawItem) (it : RawItem)
    (rest : List RawItem) (e : PyErr)
    (hpre : ∀ j ∈ pre, ∃ m, coerceItem j = .ok m)
    (hit : coerceItem it = .error e) (hc : isCaught e = true) (i : Nat) :
    validateItems (pre ++ it :: rest) i = .badItem (i + pre.length) (pyErrStr e) := by
  induction pre generalizing i with
  | nil =>
      simp only [List.nil_append, List.length_nil, Nat.add_zero]
      unfold validateItems
      rw [hit]
      simp [hc]
  | cons j pre ih =>
      rcases hpre j (List.mem_cons_self _ _) with ⟨m, hm⟩
      have hpre' : ∀ j' ∈ pre, ∃ m, coerceItem j' = .ok m :=
        fun j' hj' => hpre j' (List.mem_cons_of_mem _ hj')
      show validateItems (j :: (pre ++ it :: rest)) i = _
      unfold validateItems
      rw [hm, ih hpre' (i + 1)]
      simp only [List.length_cons]
      congr 1
      omega

theorem validateItems_first_crash (pre : List RawItem) (it : RawItem)
    (rest : List RawItem) (e : PyErr)
    (hpre : ∀ j ∈ pre, ∃ m, coerceItem j = .ok m)
    (hit : coerceItem it = .error e) (hc : isCaught e = false) (i : Nat) :
    validateItems (pre ++ it :: rest) i = .crash e := by
  induction pre generalizing i with
  | nil =>
      simp only [List.nil_append]
      unfold validateItems
      rw [hit]
      simp [hc]
  | cons j pre ih =>
      rcases hpre j (List.mem_cons_self _ _) with ⟨m, hm⟩
      have hpre' : ∀ j' ∈ pre, ∃ m, coerceItem j' = .ok m :=
        fun j' hj' => hpre j' (List.mem_cons_of_mem _ hj')
      show validateItems (j :: (pre ++ it :: rest)) i = _
      unfold validateItems
      rw [hm, ih hpre' (i + 1)]

/-! The ingest endpoint: invariants and idempotence machinery -/

theorem crear_sensores (p : Payload) (st : Store) :
    (crear_mediciones p st).2.sensores = st.sensores := by
  cases hp : payloadItems p with
  | none => simp only [crear_mediciones, hp]
  | some items =>
      cases hv : validateItems items 1 with
      | ok ms =>
          simp only [crear_mediciones, hp, hv]
          by_cases hall : ms.all (fun m => st.sensores.contains m.id_sensor)
          · rw [if_pos hall]
          · rw [if_neg hall]
      | badItem i msg => simp only [crear_mediciones, hp, hv]
      | crash e => simp only [crear_mediciones, hp, hv]

theorem StoreInv_crear (p : Payload) (st : Store) (h : StoreInv st) :
    StoreInv (crear_mediciones p st).2 := by
  cases hp : payloadItems p with
  | none => simp only [crear_mediciones, hp]; exact h
  | some items =>
      cases hv : validateItems items 1 with
      | ok ms =>
          simp only [crear_mediciones, hp, hv]
          by_cases hall : ms.all (fun m => st.sensores.contains m.id_sensor)
          · rw [if_pos hall]
            refine ⟨pkNodup_foldl_merge ms st.mediciones h.1, ?_⟩
            intro m hm
            rcases mem_foldl_merge_elim ms st.mediciones m hm with h' | h'
            · exact h.2 m h'
            · exact List.mem_of_elem_eq_true (List.all_eq_true.mp hall m h')
          · rw [if_neg hall]
            exact h
      | badItem i msg => simp only [crear_mediciones, hp, hv]; exact h
      | crash e => simp only [crear_mediciones, hp, hv]; exact h

theorem StoreSim_refl (a : Store) : StoreSim a a := ⟨rfl, fun _ => rfl⟩

theorem StoreSim_trans (a b c : Store) (h₁ : StoreSim a b) (h₂ : StoreSim b c) :
    StoreSim a c :=
  ⟨h₁.1.trans h₂.1, fun k => (h₁.2 k).trans (h₂.2 k)⟩

theorem crear_congr (p : Payload) (a b : Store) (h : StoreSim a b) :
    StoreSim (crear_mediciones p a).2 (crear_mediciones p b).2 := by
  cases hp : payloadItems p with
  | none => simp only [crear_mediciones, hp]; exact h
  | some items =>
      cases hv : validateItems items 1 with
      | ok ms =>
          simp only [crear_mediciones, hp, hv]
          by_cases hall : ms.all (fun m => a.sensores.contains m.id_sensor)
          · have hall' : ms.all (fun m => b.sensores.contains m.id_sensor) := by
              rw [← h.1]; exact hall
            rw [if_pos hall, if_pos hall']
            refine ⟨h.1, fun k => ?_⟩
            show lookupPK (ms.foldl merge_medicion a.mediciones) k = _
            rw [lookupPK_foldl_merge, lookupPK_foldl_merge, h.2 k]
          · have hall' : ¬ ms.all (fun m => b.sensores.contains m.id_sensor) := by
              rw [← h.1]; exact hall
            rw [if_neg hall, if_neg hall']
            exact h
      | badItem i msg => simp only [crear_mediciones, hp, hv]; exact h
      | crash e => simp only [crear_mediciones, hp, hv]; exact h

theorem crear_stable (p : Payload) (st : Store) :
    StoreSim (crear_mediciones p (crear_mediciones p st).2).2
      (crear_mediciones p st).2 := by
  cases hp : payloadItems p with
  | none =>
      conv in crear_mediciones p (crear_mediciones p st).2 =>
        rw [show crear_mediciones p (crear_mediciones p st).2 =
          (HttpResult.resp (.fail "JSON inválido o vacío" 400 none),
            (crear_mediciones p st).2) by simp only [crear_mediciones, hp]]
      exact StoreSim_refl _
  | some items =>
      cases hv : validateItems items 1 with
      | ok ms =>
          by_cases hall : ms.all (fun m => st.sensores.contains m.id_sensor)
          · have h1 : (crear_mediciones p st).2 =
                ⟨st.sensores, ms.foldl merge_medicion st.mediciones⟩ := by
              simp only [crear_mediciones, hp, hv]
              rw [if_pos hall]
            rw [h1]
            have h2 : (crear_mediciones p
                  ⟨st.sensores, ms.foldl merge_medicion st.mediciones⟩).2 =
                ⟨st.sensores,
                  ms.foldl merge_medicion (ms.foldl merge_medicion st.mediciones)⟩ := by
              simp only [crear_mediciones, hp, hv]
              rw [if_pos hall]
            rw [h2]
            refine ⟨rfl, fun k => ?_⟩
            show lookupPK (ms.foldl merge_medicion (ms.foldl merge_medicion st.mediciones)) k =
              lookupPK (ms.foldl merge_medicion st.mediciones) k
            simp only [lookupPK_foldl_merge]
            cases lastWriteAt ms k <;> simp
          · have h1 : (crear_mediciones p st).2 = st := by
              simp only [crear_mediciones, hp, hv]
              rw [if_neg hall]
            have h2 : (crear_mediciones p (crear_mediciones p st).2).2 =
                (crear_mediciones p st).2 := by
              conv in crear_mediciones p (crear_mediciones p st).2 =>
                rw [h1]
            rw [h2]
            exact StoreSim_refl _
      | badItem i msg =>
          have h2 : (crear_mediciones p (crear_mediciones p st).2).2 =
              (crear_mediciones p st).2 := by
            simp only [crear_mediciones, hp, hv]
          rw [h2]
          exact StoreSim_refl _
      | crash e =>
          have h2 : (crear_mediciones p (crear_mediciones p st).2).2 =
              (crear_mediciones p st).2 := by
            simp only [crear_mediciones, hp, hv]
          rw [h2]
          exact StoreSim_refl _

theorem ingestN_congr (n : Nat) (p : Payload) (a b : Store) (h : StoreSim a b) :
    StoreSim (ingestN n p a) (ingestN n p b) := by
  induction n generalizing a b with
  | zero => exact h
  | succ n ih => exact ih _ _ (crear_congr p a b h)

theorem ingestN_stable (n : Nat) (p : Payload) (st : Store) :
    StoreSim (ingestN n p (crear_mediciones p st).2) (crear_mediciones p st).2 := by
  induction n with
  | zero => exact StoreSim_refl _
  | succ n ih =>
      show StoreSim (ingestN n p (crear_mediciones p (crear_mediciones p st).2).2) _
      exact StoreSim_trans _ _ _
        (ingestN_congr n p _ _ (crear_stable p st)) ih

theorem StoreInv_ingestN (n : Nat) (p : Payload) (st : Store) (h : StoreInv st) :
    StoreInv (ingestN n p st) := by
  induction n generalizing st with
  | zero => exact h
  | succ n ih => exact ih _ (StoreInv_crear p st h)

theorem filter_pk_map_replace (l : List Medicion) (m : Medicion) (h : pkNodup l) :
    (l.map (fun x => if x.pk = m.pk then m else x)).filter (fun x => x.pk = m.pk) =
      if l.any (fun x => x.pk = m.pk) then [m] else [] := by
  induction l with
  | nil => simp
  | cons x rest ih =>
      by_cases hx : x.pk = m.pk
      · have hnot : rest.any (fun y => y.pk = m.pk) = false := by
          rw [List.any_eq_false]
          intro y hy
          simp only [decide_eq_true_eq]
          intro hcontra
          have h1 : x.pk ∉ rest.map Medicion.pk :=
            (List.nodup_cons.mp (by simpa [pkNodup] using h)).1
          exact h1 (hx ▸ hcontra ▸ List.mem_map_of_mem Medicion.pk hy)
        have htail := ih (pkNodup_tail x rest h)
        rw [hnot] at htail
        simp only [Bool.false_eq_true, if_false] at htail
        simp [hx, htail, List.any_cons]
      · have htail := ih (pkNodup_tail x rest h)
        simp [hx, htail, List.any_cons]

/-- C1: on a store satisfying the database invariant, ingesting a reading
whose `(sensor_id, timestamp)` pair already exists replaces the prior
value, leaving exactly one reading for that pair; and no ingest request
ever produces two readings with the same pair. -/
theorem C1_upsert_replaces :
    (∀ (st : Store) (it : RawItem) (m m0 : Medicion),
        StoreInv st → coerceItem it = .ok m →
        lookupPK st.mediciones m.pk = some m0 →
        ((crear_mediciones (.single it) st).2.mediciones.filter
            (fun x => x.pk = m.pk)) = [m])
    ∧ (∀ (p : Payload) (st : Store), StoreInv st →
        pkNodup (crear_mediciones p st).2.mediciones) := by
  constructor
  · intro st it m m0 hinv hco hlk
    have hv : validateItems [it] 1 = .ok [m] := by
      unfold validateItems
      rw [hco]
      rfl
    rcases pk_of_lookupPK st.mediciones m.pk m0 hlk with ⟨hpk0, hmem0⟩
    have hsid : m.id_sensor = m0.id_sensor := by
      have := congrArg Prod.fst hpk0
      simpa [Medicion.pk] using this.symm
    have hall : ([m].all fun x => st.sensores.contains x.id_sensor) = true := by
      simp only [List.all_cons, List.all_nil, Bool.and_true]
      exact List.elem_eq_true_of_mem (hsid ▸ hinv.2 m0 hmem0)
    have hstate : (crear_mediciones (.single it) st).2 =
        ⟨st.sensores, merge_medicion st.mediciones m⟩ := by
      simp only [crear_mediciones, payloadItems, hv]
      rw [if_pos hall]
      rfl
    rw [hstate]
    have hany : st.mediciones.any (fun x => x.pk = m.pk) = true :=
      List.any_eq_true.mpr ⟨m0, hmem0, by simp [hpk0]⟩
    show (merge_medicion st.mediciones m).filter (fun x => x.pk = m.pk) = [m]
    unfold merge_medicion
    rw [if_pos hany, filter_pk_map_replace st.mediciones m hinv.1, if_pos hany]
  · intro p st h
    exact (StoreInv_crear p st h).1

/-- Witness for C1 at a concrete store and reading: re-ingesting the pair
`(1, 2025-01-01T00:00:00Z)` with value `9` over a store holding value `5`
for that pair leaves exactly that one row. -/
theorem C1_upsert_replaces_witness :
    ((crear_mediciones
        (.single ⟨some (.jint 1), some (.jstr "2025-01-01T00:00:00Z"), some (.jnum 9)⟩)
        ⟨[1], [⟨1, 63897724800, 5⟩]⟩).2.mediciones.filter
          (fun x => x.pk = (⟨1, 63897724800, 9⟩ : Medicion).pk)) = [⟨1, 63897724800, 9⟩] :=
  C1_upsert_replaces.1 ⟨[1], [⟨1, 63897724800, 5⟩]⟩
    ⟨some (.jint 1), some (.jstr "2025-01-01T00:00:00Z"), some (.jnum 9)⟩
    ⟨1, 63897724800, 9⟩ ⟨1, 63897724800, 5⟩
    (by constructor <;> decide) (by decide) (by decide)

/-- C2: ingest is idempotent — after one submission of a batch, any number
of further submissions of the identical batch leaves the stored reading
set unchanged. -/
theorem C2_ingest_idempotent :
    ∀ (p : Payload) (st : Store), StoreInv st →
      ∀ (n : Nat) (x : Medicion),
        x ∈ (ingestN n p (crear_mediciones p st).2).mediciones ↔
          x ∈ (crear_mediciones p st).2.mediciones := by
  intro p st h n x
  have h1 : StoreInv (crear_mediciones p st).2 := StoreInv_crear p st h
  have h2 : StoreInv (ingestN n p (crear_mediciones p st).2) :=
    StoreInv_ingestN n p _ h1
  rw [mem_iff_lookupPK _ _ h2.1, mem_iff_lookupPK _ _ h1.1,
    (ingestN_stable n p st).2 x.pk]

/-- Witness for C2: submitting the same two-reading batch three more times
after the first leaves the same stored rows. -/
theorem C2_ingest_idempotent_witness :
    (⟨1, 63897724800, 5⟩ : Medicion) ∈ (ingestN 3
          (.array [⟨some (.jint 1), some (.jstr "2025-01-01T00:00:00Z"), some (.jnum 5)⟩,
                   ⟨some (.jint 2), some (.jstr "2025-01-02T00:00:00Z"), some (.jnum 7)⟩])
          (crear_mediciones
            (.array [⟨some (.jint 1), some (.jstr "2025-01-01T00:00:00Z"), some (.jnum 5)⟩,
                     ⟨some (.jint 2), some (.jstr "2025-01-02T00:00:00Z"), some (.jnum 7)⟩])
            ⟨[1, 2], []⟩).2).mediciones ↔
      (⟨1, 63897724800, 5⟩ : Medicion) ∈ (crear_mediciones
            (.array [⟨some (.jint 1), some (.jstr "2025-01-01T00:00:00Z"), some (.jnum 5)⟩,
                     ⟨some (.jint 2), some (.jstr "2025-01-02T00:00:00Z"), some (.jnum 7)⟩])
            ⟨[1, 2], []⟩).2.mediciones :=
  C2_ingest_idempotent
    (.array [⟨some (.jint 1), some (.jstr "2025-01-01T00:00:00Z"), some (.jnum 5)⟩,
             ⟨some (.jint 2), some (.jstr "2025-01-02T00:00:00Z"), some (.jnum 7)⟩])
    ⟨[1, 2], []⟩ (by constructor <;> decide) 3 ⟨1, 63897724800, 5⟩

/-- C3 as frozen is false at a concrete input: item #1 of this batch
fails integer coercion of `sensor_id` (`int(None)` raises `TypeError`,
which `except (KeyError, ValueError)` does not catch), yet the endpoint
does not reject the batch with an error naming item #1 — the exception
escapes the handler instead of producing the claimed error response. -/
theorem C3_counterexample :
    crear_mediciones
        (.array [⟨some .jnull, some (.jstr "2025-01-01T00:00:00Z"), some (.jnum 1)⟩])
        ⟨[1], []⟩ =
      (.crash .typeError, ⟨[1], []⟩)
    ∧ HttpResult.crash .typeError ≠
        .resp (.fail ("Ítem #1 inválido: " ++ pyErrStr .typeError) 400 none) :=
  ⟨by decide, by decide⟩

/-- C3 (amended): the first failing item of a batch decides the whole
request and nothing is ever persisted from it.  When its exception is one
the handler catches (`KeyError` for a missing field, `ValueError` from a
string failing `int()`/`float()` or timestamp parsing), the batch is
rejected with a 400 naming that 1-indexed item; when it is uncaught
(`TypeError`/`AttributeError`, e.g. a null `sensor_id` or a non-string
timestamp), the exception escapes the handler as an unhandled server
error.  In both cases the stored readings are untouched. -/
theorem C3_validation_fail_fast :
    ∀ (st : Store) (pre : List RawItem) (it : RawItem) (rest : List RawItem) (e : PyErr),
      (∀ j ∈ pre, ∃ m, coerceItem j = .ok m) →
      coerceItem it = .error e →
      ((isCaught e = true →
          crear_mediciones (.array (pre ++ it :: rest)) st =
            (.resp (.fail ("Ítem #" ++ toString (pre.length + 1) ++ " inválido: "
              ++ pyErrStr e) 400 none), st))
        ∧ (isCaught e = false →
            crear_mediciones (.array (pre ++ it :: rest)) st = (.crash e, st))) := by
  intro st pre it rest e hpre hit
  constructor
  · intro hc
    have hv := validateItems_first_bad pre it rest e hpre hit hc 1
    rw [Nat.add_comm 1 pre.length] at hv
    simp only [crear_mediciones, payloadItems, hv]
  · intro hc
    have hv := validateItems_first_crash pre it rest e hpre hit hc 1
    simp only [crear_mediciones, payloadItems, hv]

/-- Witness for C3 (amended), both branches: a batch
`[valid, bad-timestamp]` is rejected naming item `#2` with the store
unchanged, and a batch whose first item has a null `sensor_id` escapes as
an uncaught `TypeError`, also with the store unchanged. -/
theorem C3_validation_fail_fast_witness :
    (crear_mediciones
        (.array [⟨some (.jint 1), some (.jstr "2025-01-01T00:00:00Z"), some (.jnum 5)⟩,
                 ⟨some (.jint 1), some (.jstr "not-a-date"), some (.jnum 9)⟩])
        ⟨[1], [⟨1, 0, 3⟩]⟩ =
      (.resp (.fail ("Ítem #2 inválido: " ++ invalidTimestampMsg) 400 none),
        ⟨[1], [⟨1, 0, 3⟩]⟩))
    ∧ (crear_mediciones
        (.array [⟨some .jnull, some (.jstr "2025-01-02T00:00:00Z"), some (.jnum 1)⟩])
        ⟨[1], []⟩ =
      (.crash .typeError, ⟨[1], []⟩)) := by
  constructor
  · have h := (C3_validation_fail_fast ⟨[1], [⟨1, 0, 3⟩]⟩
      [⟨some (.jint 1), some (.jstr "2025-01-01T00:00:00Z"), some (.jnum 5)⟩]
      ⟨some (.jint 1), some (.jstr "not-a-date"), some (.jnum 9)⟩ []
      (.valueError invalidTimestampMsg)
      (fun j hj => by
        simp only [List.mem_singleton] at hj
        exact ⟨⟨1, 63897724800, 5⟩, by rw [hj]; decide⟩)
      (by decide)).1 (by decide)
    simpa using h
  · have h := (C3_validation_fail_fast ⟨[1], []⟩ []
      ⟨some .jnull, some (.jstr "2025-01-02T00:00:00Z"), some (.jnum 1)⟩ []
      .typeError
      (fun j hj => absurd hj (List.not_mem_nil j))
      (by decide)).2 (by decide)
    simpa using h

/-- C4: once a batch validates, persistence is all-or-nothing — if some
validated row references a sensor missing from the catalog the state is
unchanged and the endpoint fails; if every row's sensor exists, the state
is exactly the sequential upsert of the batch (each key holding its last
write) and the success response reports the input count. -/
theorem C4_persistence_atomic :
    ∀ (st : Store) (items : List RawItem) (ms : List Medicion),
      validateItems items 1 = .ok ms →
      ((¬ ∀ m ∈ ms, m.id_sensor ∈ st.sensores) →
          crear_mediciones (.array items) st =
            (.resp (.fail "No se pudieron guardar las mediciones" 400
              (some fkViolationDetails)), st))
      ∧ ((∀ m ∈ ms, m.id_sensor ∈ st.sensores) →
          crear_mediciones (.array items) st =
            (.resp (.ok (some (.inserted items.length)) 201),
              ⟨st.sensores, ms.foldl merge_medicion st.mediciones⟩)
          ∧ ∀ (k : Int × Int) (x : Medicion), lastWriteAt ms k = some x →
              lookupPK (crear_mediciones (.array items) st).2.mediciones k = some x) := by
  intro st items ms hv
  constructor
  · intro hbad
    have hall : ¬ (ms.all fun m => st.sensores.contains m.id_sensor) = true := by
      intro hcontra
      exact hbad (fun m hm =>
        List.mem_of_elem_eq_true (List.all_eq_true.mp hcontra m hm))
    simp only [crear_mediciones, payloadItems, hv]
    rw [if_neg hall]
  · intro hgood
    have hall : (ms.all fun m => st.sensores.contains m.id_sensor) = true :=
      List.all_eq_true.mpr (fun m hm => List.elem_eq_true_of_mem (hgood m hm))
    have hre : crear_mediciones (.array items) st =
        (.resp (.ok (some (.inserted items.length)) 201),
          ⟨st.sensores, ms.foldl merge_medicion st.mediciones⟩) := by
      simp only [crear_mediciones, payloadItems, hv]
      rw [if_pos hall, validateItems_length items 1 ms hv]
    refine ⟨hre, fun k x hw => ?_⟩
    rw [hre]
    show lookupPK (ms.foldl merge_medicion st.mediciones) k = some x
    rw [lookupPK_foldl_merge, hw]
    rfl

/-- Witness for C4, both branches: a validated batch against a catalog
missing sensor 7 is rejected with the store unchanged, and the same batch
against a full catalog persists both rows and reports the input count. -/
theorem C4_persistence_atomic_witness :
    (crear_mediciones
        (.array [⟨some (.jint 7), some (.jstr "2025-01-01T00:00:00Z"), some (.jnum 5)⟩])
        ⟨[1], []⟩ =
      (.resp (.fail "No se pudieron guardar las mediciones" 400
        (some fkViolationDetails)), ⟨[1], []⟩))
    ∧ (crear_mediciones
        (.array [⟨some (.jint 1), some (.jstr "2025-01-01T00:00:00Z"), some (.jnum 5)⟩])
        ⟨[1], []⟩ =
      (.resp (.ok (some (.inserted 1)) 201),
        ⟨[1], [⟨1, 63897724800, 5⟩]⟩)) := by
  constructor
  · exact (C4_persistence_atomic ⟨[1], []⟩
      [⟨some (.jint 7), some (.jstr "2025-01-01T00:00:00Z"), some (.jnum 5)⟩]
      [⟨7, 63897724800, 5⟩] (by decide)).1 (by decide)
  · have h := ((C4_persistence_atomic ⟨[1], []⟩
      [⟨some (.jint 1), some (.jstr "2025-01-01T00:00:00Z"), some (.jnum 5)⟩]
      [⟨1, 63897724800, 5⟩] (by decide)).2 (by decide)).1
    simpa using h

/-! The query endpoint -/

instance : IsTotal Medicion ascOrder :=
  ⟨fun a b => Int.le_total a.fecha_hora b.fecha_hora⟩

instance : IsTrans Medicion ascOrder :=
  ⟨fun _ _ _ hab hbc => le_trans hab hbc⟩

instance : IsTotal Medicion descOrder :=
  ⟨fun a b => (Int.le_total b.fecha_hora a.fecha_hora).imp id id⟩

instance : IsTrans Medicion descOrder :=
  ⟨fun _ _ _ hab hbc => le_trans hbc hab⟩

theorem runQuery_sortedBase (sid : Int) (lb ub : Option Int) (ord : String)
    (limit : Int) (rows : List Medicion) :
    runQuery sid lb ub ord limit rows =
      (if ord = "asc" then
        List.insertionSort ascOrder (rows.filter (matchesQuery sid lb ub))
       else
        List.insertionSort descOrder (rows.filter (matchesQuery sid lb ub))).take
        limit.toNat := by
  unfold runQuery
  by_cases hord : ord = "asc" <;> simp [hord]

theorem sortBase_perm (sid : Int) (lb ub : Option Int) (ord : String)
    (rows : List Medicion) :
    (if ord = "asc" then
        List.insertionSort ascOrder (rows.filter (matchesQuery sid lb ub))
     else
        List.insertionSort descOrder (rows.filter (matchesQuery sid lb ub))).Perm
      (rows.filter (matchesQuery sid lb ub)) := by
  by_cases hord : ord = "asc"
  · rw [if_pos hord]; exact List.perm_insertionSort _ _
  · rw [if_neg hord]; exact List.perm_insertionSort _ _

theorem runQuery_mem (sid : Int) (lb ub : Option Int) (ord : String)
    (limit : Int) (rows : List Medicion) (r : Medicion)
    (hr : r ∈ runQuery sid lb ub ord limit rows) :
    r ∈ rows ∧ matchesQuery sid lb ub r = true := by
  rw [runQuery_sortedBase] at hr
  have h1 := (List.take_sublist _ _).subset hr
  have h2 := (sortBase_perm sid lb ub ord rows).subset h1
  exact ⟨(List.mem_filter.mp h2).1, (List.mem_filter.mp h2).2⟩

theorem runQuery_length (sid : Int) (lb ub : Option Int) (ord : String)
    (limit : Int) (rows : List Medicion) :
    (runQuery sid lb ub ord limit rows).length =
      min limit.toNat (rows.filter (matchesQuery sid lb ub)).length := by
  rw [runQuery_sortedBase, List.length_take,
    (sortBase_perm sid lb ub ord rows).length_eq]

theorem runQuery_complete (sid : Int) (lb ub : Option Int) (ord : String)
    (limit : Int) (rows : List Medicion)
    (hlen : (rows.filter (matchesQuery sid lb ub)).length ≤ limit.toNat)
    (m : Medicion) (hm : m ∈ rows) (hmatch : matchesQuery sid lb ub m = true) :
    m ∈ runQuery sid lb ub ord limit rows := by
  rw [runQuery_sortedBase, List.take_of_length_le
    (by rw [(sortBase_perm sid lb ub ord rows).length_eq]; exact hlen)]
  exact ((sortBase_perm sid lb ub ord rows).mem_iff).mpr
    (List.mem_filter.mpr ⟨hm, hmatch⟩)

theorem runQuery_sorted_asc (sid : Int) (lb ub : Option Int) (limit : Int)
    (rows : List Medicion) :
    (runQuery sid lb ub "asc" limit rows).Sorted ascOrder := by
  rw [runQuery_sortedBase, if_pos rfl]
  exact (List.sorted_insertionSort ascOrder _).sublist (List.take_sublist _ _)

theorem runQuery_sorted_desc (sid : Int) (lb ub : Option Int) (ord : String)
    (limit : Int) (rows : List Medicion) (hord : ord ≠ "asc") :
    (runQuery sid lb ub ord limit rows).Sorted descOrder := by
  rw [runQuery_sortedBase, if_neg hord]
  exact (List.sorted_insertionSort descOrder _).sublist (List.take_sublist _ _)

theorem runQuery_not_asc (sid : Int) (lb ub : Option Int) (ord : String)
    (limit : Int) (rows : List Medicion) (hord : ord ≠ "asc") :
    runQuery sid lb ub ord limit rows = runQuery sid lb ub "desc" limit rows := by
  rw [runQuery_sortedBase, runQuery_sortedBase, if_neg hord,
    if_neg (by decide : ¬ ("desc" : String) = "asc")]

theorem matchesQuery_iff (sid : Int) (lb ub : Option Int) (m : Medicion) :
    matchesQuery sid lb ub m = true ↔
      m.id_sensor = sid
      ∧ (∀ t, lb = some t → t ≤ m.fecha_hora)
      ∧ (∀ t, ub = some t → m.fecha_hora ≤ t) := by
  cases lb <;> cases ub <;> simp [matchesQuery, and_assoc]

theorem consultar_ok (args : QueryArgs) (st : Store) (sid : Int)
    (lb ub : Option Int)
    (h1 : flaskGetInt args.id_sensor = some sid) (h2 : sid ≠ 0)
    (h3 : boundOf args.desde = .ok lb) (h4 : boundOf args.hasta = .ok ub) :
    consultar_mediciones args st =
      .resp (.ok (some (.rows (runQuery sid lb ub (orderOf args.order)
        (limitOf args.limit) st.mediciones))) 200) := by
  simp only [consultar_mediciones, h1]
  rw [if_neg h2]
  simp only [h3, h4]

theorem sorted_take_rel {α : Type} (R : α → α → Prop) (l : List α) (n : Nat)
    (hs : l.Pairwise R) (x : α) (hx : x ∈ l.take n) (y : α) (hy : y ∈ l)
    (hny : y ∉ l.take n) : R x y := by
  have hy2 : y ∈ l.take n ++ l.drop n := by
    rw [List.take_append_drop]
    exact hy
  have hyd : y ∈ l.drop n := by
    rcases List.mem_append.mp hy2 with h | h
    · exact absurd h hny
    · exact h
  have hp : List.Pairwise R (l.take n ++ l.drop n) := by
    rw [List.take_append_drop]
    exact hs
  exact (List.pairwise_append.mp hp).2.2 x hx y hyd

theorem runQuery_topk_desc (sid : Int) (lb ub : Option Int) (ord : String)
    (limit : Int) (rows : List Medicion) (hord : ord ≠ "asc")
    (r : Medicion) (hr : r ∈ runQuery sid lb ub ord limit rows)
    (m : Medicion) (hm : m ∈ rows) (hmatch : matchesQuery sid lb ub m = true)
    (hnm : m ∉ runQuery sid lb ub ord limit rows) :
    m.fecha_hora ≤ r.fecha_hora := by
  rw [runQuery_sortedBase, if_neg hord] at hr hnm
  have hmS : m ∈ List.insertionSort descOrder (rows.filter (matchesQuery sid lb ub)) :=
    (List.perm_insertionSort descOrder _).mem_iff.mpr
      (List.mem_filter.mpr ⟨hm, hmatch⟩)
  exact sorted_take_rel descOrder
    (List.insertionSort descOrder (rows.filter (matchesQuery sid lb ub)))
    limit.toNat (List.sorted_insertionSort descOrder _) r hr m hmS hnm

theorem runQuery_topk_asc (sid : Int) (lb ub : Option Int) (ord : String)
    (limit : Int) (rows : List Medicion) (hord : ord = "asc")
    (r : Medicion) (hr : r ∈ runQuery sid lb ub ord limit rows)
    (m : Medicion) (hm : m ∈ rows) (hmatch : matchesQuery sid lb ub m = true)
    (hnm : m ∉ runQuery sid lb ub ord limit rows) :
    r.fecha_hora ≤ m.fecha_hora := by
  rw [runQuery_sortedBase, if_pos hord] at hr hnm
  have hmS : m ∈ List.insertionSort ascOrder (rows.filter (matchesQuery sid lb ub)) :=
    (List.perm_insertionSort ascOrder _).mem_iff.mpr
      (List.mem_filter.mpr ⟨hm, hmatch⟩)
  exact sorted_take_rel ascOrder
    (List.insertionSort ascOrder (rows.filter (matchesQuery sid lb ub)))
    limit.toNat (List.sorted_insertionSort ascOrder _) r hr m hmS hnm

theorem pkNodup_nodup (l : List Medicion) (h : pkNodup l) : l.Nodup :=
  List.Nodup.of_map Medicion.pk h

theorem runQuery_nodup (sid : Int) (lb ub : Option Int) (ord : String)
    (limit : Int) (rows : List Medicion) (h : pkNodup rows) :
    (runQuery sid lb ub ord limit rows).Nodup := by
  rw [runQuery_sortedBase]
  have hf : (rows.filter (matchesQuery sid lb ub)).Nodup :=
    (pkNodup_nodup rows h).filter _
  apply List.Nodup.sublist (List.take_sublist _ _)
  exact ((sortBase_perm sid lb ub ord rows).nodup_iff).mpr hf

/-- C5: on a store satisfying the database invariant, with a valid
`sensor_id`, parsed optional bounds and a non-negative effective limit,
the query succeeds (even when empty) and returns exactly the stored
readings of that sensor inside the inclusive bounds, sorted per the order
token and truncated to the limit (default 100 when absent): every
returned row is a matching stored row, the count is the limit-capped
matching count, nothing is dropped below the limit, the rows are sorted
per the order, contain no duplicates, and every dropped matching row is
outranked by every returned one — descending keeps the most recent rows,
ascending the earliest. -/
theorem C5_query_filter_sort_limit :
    ∀ (args : QueryArgs) (st : Store) (sid : Int) (lb ub : Option Int),
      StoreInv st →
      flaskGetInt args.id_sensor = some sid → sid ≠ 0 →
      boundOf args.desde = .ok lb → boundOf args.hasta = .ok ub →
      0 ≤ limitOf args.limit →
      ∃ rs : List Medicion,
        consultar_mediciones args st = .resp (.ok (some (.rows rs)) 200)
        ∧ (∀ r ∈ rs, r ∈ st.mediciones ∧ r.id_sensor = sid
            ∧ (∀ t, lb = some t → t ≤ r.fecha_hora)
            ∧ (∀ t, ub = some t → r.fecha_hora ≤ t))
        ∧ rs.length = min (limitOf args.limit).toNat
            (st.mediciones.filter (matchesQuery sid lb ub)).length
        ∧ (args.limit = none →
            rs.length = min 100 (st.mediciones.filter (matchesQuery sid lb ub)).length)
        ∧ ((st.mediciones.filter (matchesQuery sid lb ub)).length ≤
              (limitOf args.limit).toNat →
            ∀ m ∈ st.mediciones, matchesQuery sid lb ub m = true → m ∈ rs)
        ∧ (orderOf args.order = "asc" → rs.Sorted ascOrder)
        ∧ (orderOf args.order ≠ "asc" → rs.Sorted descOrder)
        ∧ rs.Nodup
        ∧ (orderOf args.order ≠ "asc" →
            ∀ r ∈ rs, ∀ m ∈ st.mediciones, matchesQuery sid lb ub m = true →
              m ∉ rs → m.fecha_hora ≤ r.fecha_hora)
        ∧ (orderOf args.order = "asc" →
            ∀ r ∈ rs, ∀ m ∈ st.mediciones, matchesQuery sid lb ub m = true →
              m ∉ rs → r.fecha_hora ≤ m.fecha_hora) := by
  intro args st sid lb ub hinv h1 h2 h3 h4 _
  refine ⟨runQuery sid lb ub (orderOf args.order) (limitOf args.limit) st.mediciones,
    consultar_ok args st sid lb ub h1 h2 h3 h4, ?_, ?_, ?_, ?_, ?_, ?_, ?_, ?_, ?_⟩
  · intro r hr
    rcases runQuery_mem sid lb ub _ _ _ r hr with ⟨hmem, hmatch⟩
    rcases (matchesQuery_iff sid lb ub r).mp hmatch with ⟨ha, hb, hc⟩
    exact ⟨hmem, ha, hb, hc⟩
  · exact runQuery_length sid lb ub _ _ _
  · intro hnone
    rw [runQuery_length sid lb ub _ _ _, hnone]
    rfl
  · intro hlen m hm hmatch
    exact runQuery_complete sid lb ub _ _ _ hlen m hm hmatch
  · intro hasc
    rw [hasc]
    exact runQuery_sorted_asc sid lb ub _ _
  · intro hnasc
    exact runQuery_sorted_desc sid lb ub _ _ _ hnasc
  · exact runQuery_nodup sid lb ub _ _ _ hinv.1
  · intro hnasc r hr m hm hmatch hnm
    exact runQuery_topk_desc sid lb ub _ _ _ hnasc r hr m hm hmatch hnm
  · intro hasc r hr m hm hmatch hnm
    exact runQuery_topk_asc sid lb ub _ _ _ hasc r hr m hm hmatch hnm

/-- Witness for C5 at a concrete query: sensor 1 with no bounds over a
three-reading store. -/
theorem C5_query_filter_sort_limit_witness :
    ∃ rs : List Medicion,
      consultar_mediciones ⟨some "1", none, none, none, none⟩
          ⟨[1, 2], [⟨1, 100, 1⟩, ⟨1, 200, 2⟩, ⟨2, 300, 3⟩]⟩ =
        .resp (.ok (some (.rows rs)) 200)
      ∧ (∀ r ∈ rs, r ∈ ([⟨1, 100, 1⟩, ⟨1, 200, 2⟩, ⟨2, 300, 3⟩] : List Medicion)
          ∧ r.id_sensor = 1
          ∧ (∀ t, (none : Option Int) = some t → t ≤ r.fecha_hora)
          ∧ (∀ t, (none : Option Int) = some t → r.fecha_hora ≤ t))
      ∧ rs.length = min (limitOf none).toNat
          (([⟨1, 100, 1⟩, ⟨1, 200, 2⟩, ⟨2, 300, 3⟩] : List Medicion).filter
            (matchesQuery 1 none none)).length
      ∧ ((none : Option String) = none →
          rs.length = min 100 (([⟨1, 100, 1⟩, ⟨1, 200, 2⟩, ⟨2, 300, 3⟩] :
            List Medicion).filter (matchesQuery 1 none none)).length)
      ∧ ((([⟨1, 100, 1⟩, ⟨1, 200, 2⟩, ⟨2, 300, 3⟩] : List Medicion).filter
            (matchesQuery 1 none none)).length ≤ (limitOf none).toNat →
          ∀ m ∈ ([⟨1, 100, 1⟩, ⟨1, 200, 2⟩, ⟨2, 300, 3⟩] : List Medicion),
            matchesQuery 1 none none m = true → m ∈ rs)
      ∧ (orderOf none = "asc" → rs.Sorted ascOrder)
      ∧ (orderOf none ≠ "asc" → rs.Sorted descOrder)
      ∧ rs.Nodup
      ∧ (orderOf none ≠ "asc" →
          ∀ r ∈ rs, ∀ m ∈ ([⟨1, 100, 1⟩, ⟨1, 200, 2⟩, ⟨2, 300, 3⟩] : List Medicion),
            matchesQuery 1 none none m = true → m ∉ rs →
              m.fecha_hora ≤ r.fecha_hora)
      ∧ (orderOf none = "asc" →
          ∀ r ∈ rs, ∀ m ∈ ([⟨1, 100, 1⟩, ⟨1, 200, 2⟩, ⟨2, 300, 3⟩] : List Medicion),
            matchesQuery 1 none none m = true → m ∉ rs →
              r.fecha_hora ≤ m.fecha_hora) :=
  C5_query_filter_sort_limit ⟨some "1", none, none, none, none⟩
    ⟨[1, 2], [⟨1, 100, 1⟩, ⟨1, 200, 2⟩, ⟨2, 300, 3⟩]⟩ 1 none none
    (by constructor <;> decide) (by decide) (by decide) (by decide) (by decide)
    (by decide)

/-- C6: with the order parameter absent the results come sorted descending
by timestamp; ascending is produced when the token lowercases to `asc`;
any other token behaves exactly like the descending default — a successful
response, not an error. -/
theorem C6_order_token_fallback :
    ∀ (args : QueryArgs) (st : Store) (sid : Int) (lb ub : Option Int),
      flaskGetInt args.id_sensor = some sid → sid ≠ 0 →
      boundOf args.desde = .ok lb → boundOf args.hasta = .ok ub →
      ∃ rs : List Medicion,
        consultar_mediciones args st = .resp (.ok (some (.rows rs)) 200)
        ∧ (args.order = none → rs.Sorted descOrder)
        ∧ (∀ tok, args.order = some tok → pyLower tok = "asc" → rs.Sorted ascOrder)
        ∧ (∀ tok, args.order = some tok → pyLower tok ≠ "asc" →
            rs.Sorted descOrder
            ∧ consultar_mediciones args st =
                consultar_mediciones ⟨args.id_sensor, args.limit, none,
                  args.desde, args.hasta⟩ st) := by
  intro args st sid lb ub h1 h2 h3 h4
  refine ⟨runQuery sid lb ub (orderOf args.order) (limitOf args.limit) st.mediciones,
    consultar_ok args st sid lb ub h1 h2 h3 h4, ?_, ?_, ?_⟩
  · intro hnone
    apply runQuery_sorted_desc
    rw [hnone]
    decide
  · intro tok htok hasc
    have : orderOf args.order = "asc" := by rw [htok]; exact hasc
    rw [this]
    exact runQuery_sorted_asc sid lb ub _ _
  · intro tok htok hnasc
    have hord : orderOf args.order ≠ "asc" := by rw [htok]; exact hnasc
    refine ⟨runQuery_sorted_desc sid lb ub _ _ _ hord, ?_⟩
    rw [consultar_ok args st sid lb ub h1 h2 h3 h4,
      consultar_ok ⟨args.id_sensor, args.limit, none, args.desde, args.hasta⟩ st
        sid lb ub h1 h2 h3 h4,
      runQuery_not_asc sid lb ub _ _ _ hord]
    rfl

/-- Witness for C6: an unrecognized order token `newest` behaves like the
descending default on a two-reading store. -/
theorem C6_order_token_fallback_witness :
    ∃ rs : List Medicion,
      consultar_mediciones ⟨some "1", none, some "newest", none, none⟩
          ⟨[1], [⟨1, 100, 1⟩, ⟨1, 200, 2⟩]⟩ =
        .resp (.ok (some (.rows rs)) 200)
      ∧ ((some "newest" : Option String) = none → rs.Sorted descOrder)
      ∧ (∀ tok, (some "newest" : Option String) = some tok → pyLower tok = "asc" →
          rs.Sorted ascOrder)
      ∧ (∀ tok, (some "newest" : Option String) = some tok → pyLower tok ≠ "asc" →
          rs.Sorted descOrder
          ∧ consultar_mediciones ⟨some "1", none, some "newest", none, none⟩
              ⟨[1], [⟨1, 100, 1⟩, ⟨1, 200, 2⟩]⟩ =
            consultar_mediciones ⟨some "1", none, none, none, none⟩
              ⟨[1], [⟨1, 100, 1⟩, ⟨1, 200, 2⟩]⟩) :=
  C6_order_token_fallback ⟨some "1", none, some "newest", none, none⟩
    ⟨[1], [⟨1, 100, 1⟩, ⟨1, 200, 2⟩]⟩ 1 none none
    (by decide) (by decide) (by decide) (by decide)

/-- C8: a query whose `sensor_id` is absent (or uncoercible, which Flask
maps to absent) or equal to zero fails with the missing-parameter error;
no readings are returned. -/
theorem C8_sensor_id_mandatory :
    ∀ (args : QueryArgs) (st : Store),
      flaskGetInt args.id_sensor = none ∨ flaskGetInt args.id_sensor = some 0 →
      consultar_mediciones args st =
        .resp (.fail "Parámetro 'id_sensor' es obligatorio" 400 none) := by
  intro args st h
  rcases h with h | h
  · simp only [consultar_mediciones, h]
  · simp only [consultar_mediciones, h]
    simp

/-- Witness for C8: both an absent `sensor_id` and `sensor_id=0` are
rejected. -/
theorem C8_sensor_id_mandatory_witness :
    consultar_mediciones ⟨some "0", none, none, none, none⟩ ⟨[1], [⟨1, 5, 1⟩]⟩ =
      .resp (.fail "Parámetro 'id_sensor' es obligatorio" 400 none) :=
  C8_sensor_id_mandatory ⟨some "0", none, none, none, none⟩ ⟨[1], [⟨1, 5, 1⟩]⟩
    (Or.inr (by decide))

/-- C10: a present but non-integer `sensor_id` query parameter is treated
exactly like an absent one: Werkzeug's typed `get` turns the failed
`int()` coercion into `None`, so the mandatory-parameter check fires and
both endpoints answer with their missing-parameter error. -/
theorem C10_uncoercible_sensor_id :
    ∀ (s : String), pyStrToInt s = none →
      ∀ (st : Store) (l o d h : Option String),
        consultar_mediciones ⟨some s, l, o, d, h⟩ st =
            consultar_mediciones ⟨none, l, o, d, h⟩ st
        ∧ consultar_mediciones ⟨some s, l, o, d, h⟩ st =
            .resp (.fail "Parámetro 'id_sensor' es obligatorio" 400 none)
        ∧ get_measurements ⟨some s, l, o, d, h⟩ st =
            .resp (.fail "Parameter 'id_sensor' is required" 400 none) := by
  intro s hs st l o d h
  have habs : flaskGetInt (some s) = none := by
    simp [flaskGetInt, hs]
  refine ⟨?_, ?_, ?_⟩
  · simp only [consultar_mediciones, habs, flaskGetInt, hs]
  · simp only [consultar_mediciones, habs]
  · simp only [get_measurements, habs]

/-- Witness for C10 at `sensor_id=abc`. -/
theorem C10_uncoercible_sensor_id_witness :
    consultar_mediciones ⟨some "abc", none, none, none, none⟩ ⟨[1], [⟨1, 5, 1⟩]⟩ =
        consultar_mediciones ⟨none, none, none, none, none⟩ ⟨[1], [⟨1, 5, 1⟩]⟩
      ∧ consultar_mediciones ⟨some "abc", none, none, none, none⟩ ⟨[1], [⟨1, 5, 1⟩]⟩ =
          .resp (.fail "Parámetro 'id_sensor' es obligatorio" 400 none)
      ∧ get_measurements ⟨some "abc", none, none, none, none⟩ ⟨[1], [⟨1, 5, 1⟩]⟩ =
          .resp (.fail "Parameter 'id_sensor' is required" 400 none) :=
  C10_uncoercible_sensor_id "abc" (by decide) ⟨[1], [⟨1, 5, 1⟩]⟩ none none none none

/-! The timestamp normalizer -/

theorem foldr_replaceZ_no_z (l acc : List Char) (h : 'Z' ∉ l) :
    l.foldr (fun c acc => if c = 'Z' then '+' :: '0' :: '0' :: ':' :: '0' :: '0' :: acc
      else c :: acc) acc = l ++ acc := by
  induction l with
  | nil => rfl
  | cons c rest ih =>
      have hc : ¬ c = 'Z' := fun hc => h (hc ▸ List.mem_cons_self c rest)
      have hrest : 'Z' ∉ rest := fun hr => h (List.mem_cons_of_mem c hr)
      simp [hc, ih hrest]

theorem pyReplaceZ_eq_self (s : String) (h : 'Z' ∉ s.data) : pyReplaceZ s = s := by
  apply String.ext
  show s.data.foldr _ [] = s.data
  rw [foldr_replaceZ_no_z s.data [] h, List.append_nil]

theorem pyReplaceZ_append_z (s : String) (h : 'Z' ∉ s.data) :
    pyReplaceZ (s ++ "Z") = s ++ "+00:00" := by
  apply String.ext
  show (s ++ "Z").data.foldr _ [] = (s ++ "+00:00").data
  rw [String.data_append, String.data_append, List.foldr_append]
  rw [show ("Z".data.foldr (fun c acc =>
      if c = 'Z' then '+' :: '0' :: '0' :: ':' :: '0' :: '0' :: acc else c :: acc) []) =
    "+00:00".data from rfl]
  exact foldr_replaceZ_no_z s.data "+00:00".data h

/-- C7: a timestamp accepted by the normalizer that carries no zone
information is read as UTC wall-clock — the result is the same datetime
with a `+00:00` offset, whose instant equals the naive wall-clock seconds;
concretely `2025-10-14T09:30:00` and `2025-10-14T09:30:00Z` denote the
same instant, and a trailing `Z` is interchangeable with `+00:00`. -/
theorem C7_naive_assumed_utc :
    (∀ (s : String) (dt : PyDateTime),
        fromisoformat (pyReplaceZ s) = some dt → dt.tzOffset = none →
        parse_iso_datetime s = .ok { dt with tzOffset := some 0 }
          ∧ PyDateTime.instant { dt with tzOffset := some 0 } = dt.naiveSeconds)
    ∧ ((parse_iso_datetime "2025-10-14T09:30:00").map PyDateTime.instant =
        (parse_iso_datetime "2025-10-14T09:30:00Z").map PyDateTime.instant)
    ∧ (∀ s : String, 'Z' ∉ s.data →
        parse_iso_datetime (s ++ "Z") = parse_iso_datetime (s ++ "+00:00")) := by
  refine ⟨?_, by decide, ?_⟩
  · intro s dt h1 h2
    constructor
    · unfold parse_iso_datetime
      rw [h1]
      simp [h2]
    · simp [PyDateTime.instant, PyDateTime.naiveSeconds]
  · intro s h
    have hz : 'Z' ∉ (s ++ "+00:00").data := by
      rw [String.data_append]
      intro hc
      rcases List.mem_append.mp hc with hc | hc
      · exact h hc
      · exact absurd hc (by decide)
    unfold parse_iso_datetime
    rw [pyReplaceZ_append_z s h, pyReplaceZ_eq_self (s ++ "+00:00") hz]

/-- Witness for C7: the concrete naive timestamp of the spec, and a
concrete `Z`/`+00:00` interchange. -/
theorem C7_naive_assumed_utc_witness :
    (parse_iso_datetime "2025-10-14T09:30:00" =
        .ok ⟨2025, 10, 14, 9, 30, 0, some 0⟩
      ∧ PyDateTime.instant ⟨2025, 10, 14, 9, 30, 0, some 0⟩ =
          PyDateTime.naiveSeconds ⟨2025, 10, 14, 9, 30, 0, none⟩)
    ∧ parse_iso_datetime ("2025-01-01T00:00:00" ++ "Z") =
        parse_iso_datetime ("2025-01-01T00:00:00" ++ "+00:00") :=
  ⟨C7_naive_assumed_utc.1 "2025-10-14T09:30:00" ⟨2025, 10, 14, 9, 30, 0, none⟩
      (by decide) rfl,
    C7_naive_assumed_utc.2.2 "2025-01-01T00:00:00" (by decide)⟩

/-- C9 as stated is false at a concrete input: the normalizer's error
message is a fixed guidance string that does not contain the offending
value. -/
theorem C9_counterexample :
    parse_iso_datetime "claramente-invalido" = .error invalidTimestampMsg
      ∧ ¬ ("claramente-invalido".data <:+: invalidTimestampMsg.data) := by
  exact ⟨by decide, by decide⟩

/-- C9 (amended): an unparsable timestamp makes the normalizer fail with
the fixed `ValueError` guidance message (naming the expected ISO-8601
format but not echoing the offending value), and both endpoints surface
it as a 400 client validation failure. -/
theorem C9_invalid_timestamp_guidance :
    ∀ (s : String), fromisoformat (pyReplaceZ s) = none →
      parse_iso_datetime s = .error invalidTimestampMsg
      ∧ ("ISO 8601".data <:+: invalidTimestampMsg.data)
      ∧ (∀ (args : QueryArgs) (st : Store) (sid : Int),
          flaskGetInt args.id_sensor = some sid → sid ≠ 0 →
          args.desde = some s → s ≠ "" →
          consultar_mediciones args st = .resp (.fail invalidTimestampMsg 400 none))
      ∧ (∀ (st : Store) (n : Int) (q : Rat),
          crear_mediciones
              (.array [⟨some (.jint n), some (.jstr s), some (.jnum q)⟩]) st =
            (.resp (.fail ("Ítem #1 inválido: " ++ invalidTimestampMsg) 400 none),
              st)) := by
  intro s hs
  have hparse : parse_iso_datetime s = .error invalidTimestampMsg := by
    unfold parse_iso_datetime
    rw [hs]
  refine ⟨hparse, by decide, ?_, ?_⟩
  · intro args st sid h1 h2 hd hne
    simp only [consultar_mediciones, h1]
    rw [if_neg h2]
    simp only [boundOf, hd]
    rw [if_neg hne, hparse]
  · intro st n q
    have hco : coerceItem ⟨some (.jint n), some (.jstr s), some (.jnum q)⟩ =
        .error (.valueError invalidTimestampMsg) := by
      simp [coerceItem, getField, py_int, parse_iso_val, hparse]
    have hv : validateItems [⟨some (.jint n), some (.jstr s), some (.jnum q)⟩] 1 =
        .badItem 1 (pyErrStr (.valueError invalidTimestampMsg)) := by
      unfold validateItems
      rw [hco]
      rfl
    simp only [crear_mediciones, payloadItems, hv]
    rfl

/-- Witness for C9 (amended) at the unparsable input `nonsense`. -/
theorem C9_invalid_timestamp_guidance_witness :
    parse_iso_datetime "nonsense" = .error invalidTimestampMsg
      ∧ crear_mediciones
            (.array [⟨some (.jint 1), some (.jstr "nonsense"), some (.jnum 1)⟩])
            ⟨[1], []⟩ =
          (.resp (.fail ("Ítem #1 inválido: " ++ invalidTimestampMsg) 400 none),
            ⟨[1], []⟩)
      ∧ consultar_mediciones ⟨some "1", none, none, some "nonsense", none⟩ ⟨[], []⟩ =
          .resp (.fail invalidTimestampMsg 400 none) :=
  ⟨(C9_invalid_timestamp_guidance "nonsense" (by decide)).1,
    (C9_invalid_timestamp_guidance "nonsense" (by decide)).2.2.2 ⟨[1], []⟩ 1 1,
    (C9_invalid_timestamp_guidance "nonsense" (by decide)).2.2.1
      ⟨some "1", none, none, some "nonsense", none⟩ ⟨[], []⟩ 1
      (by decide) (by decide) rfl (by decide)⟩

end RioSanJuan
